import Mathlib

/-!
# Verification of the AI customer-support bot response pipeline

Shallow embedding of `src/app.py`: the tokenizer, FAQ loader and matcher,
escalation detector, conversation store, and the `/chat` response pipeline.

Python strings are modelled as Lean `String` (`str.lower`/`str.isalnum`
modelled on the basic-latin range via `Char.toLower`/`Char.isAlphanum`),
Python floats as `ℚ`, JSON values as an inductive `Json`, the sqlite
`conversations` table as a list of `Message` in insertion order (the
autoincrement `id` is the list position), and the external generative
backend as an oracle value per configured model.  Raised Python exceptions
are modelled with `Except`.
-/

/-- A row of the `conversations` table (`init_db`): the autoincrement `id`
column is the position in the list, so insertion order is list order. -/
structure Message where
  session_id : String
  role : String
  content : String
  deriving DecidableEq

/-- `save_message` (src/app.py:56): INSERT appends one row. -/
def save_message (db : List Message) (session_id role content : String) : List Message :=
  db ++ [⟨session_id, role, content⟩]

/-- `get_history` (src/app.py:66): rows of the session ordered by id, each
mapped to a (role, content) pair with the role normalised to
"assistant"/"user". -/
def get_history (db : List Message) (session_id : String) : List (String × String) :=
  (db.filter (fun m => m.session_id == session_id)).map
    (fun m => (if m.role == "assistant" then "assistant" else "user", m.content))

/-! ## Tokenizer (src/app.py:105) -/

/-- The per-character normalisation inside `tokenize`:
`c if c.isalnum() else ' '`. -/
def pyMapChar (c : Char) : Char :=
  if c.isAlphanum then c else ' '

/-- Worker for `pySplit`: `acc` holds the characters of the in-progress
word, most recent first. -/
def pySplitAux : List Char → List Char → List (List Char)
  | [], acc => if acc.isEmpty then [] else [acc.reverse]
  | c :: rest, acc =>
    if c.isWhitespace then
      if acc.isEmpty then pySplitAux rest []
      else acc.reverse :: pySplitAux rest []
    else pySplitAux rest (c :: acc)

/-- Python `str.split()` with no separator: split on runs of whitespace,
discarding empty fragments. -/
def pySplit (cs : List Char) : List (List Char) :=
  pySplitAux cs []

/-- `(text or "")`: Python `or` yields the right operand when the left is
falsy (`None` or the empty string). -/
def orEmpty (text : Option String) : String :=
  match text with
  | none => ""
  | some s => if s = "" then "" else s

/-- `tokenize` (src/app.py:105): lower-case, replace non-alphanumeric
characters by a space, split on whitespace, keep tokens of length > 1. -/
def tokenize (text : Option String) : List String :=
  ((pySplit (((orEmpty text).data.map Char.toLower).map pyMapChar)).filter
      (fun w => 1 < w.length)).map String.mk

/-- Python `" ".join(ws)`. -/
def joinSpace (ws : List String) : String :=
  match ws with
  | [] => ""
  | [w] => w
  | w :: rest => w ++ " " ++ joinSpace rest

/-! ## FAQ matcher (src/app.py:108) -/

/-- One entry of the in-memory `FAQ_LIST` in its well-typed form
(string question/answer, list of string tags), as produced by `load_faqs`
from a well-formed `faqs.json`. -/
structure FAQ where
  question : String
  answer : String
  tags : List String
  deriving DecidableEq

/-- The combined text of an entry (src/app.py:115):
`question + " " + answer + " " + " ".join(tags)`. -/
def faqCombined (f : FAQ) : String :=
  f.question ++ " " ++ f.answer ++ " " ++ joinSpace f.tags

/-- Rational division, written without `Rat.inv` (which is marked
irreducible and so would block kernel evaluation of the model on concrete
inputs).  `ratDiv_eq_div` below shows it agrees with `/` on ℚ. -/
def ratDiv (a b : ℚ) : ℚ :=
  Rat.divInt (a.num * b.den) (a.den * b.num)

/-- Python `round(x, 3)` at rational precision: nearest multiple of
1/1000 (tie handling is immaterial to the claims verified here). -/
def round3 (q : ℚ) : ℚ :=
  Rat.divInt (q * 1000 + mkRat 1 2).floor 1000

/-- The `for faq in FAQ_LIST` loop of `find_relevant_faq`
(src/app.py:114-122), carrying `best_score` and `best_faq`. -/
def faqLoop (qTokens : Finset String) : List FAQ → ℚ → Option FAQ → ℚ × Option FAQ
  | [], best, bestFaq => (best, bestFaq)
  | faq :: rest, best, bestFaq =>
    let tokens := (tokenize (some (faqCombined faq))).toFinset
    if tokens = ∅ then faqLoop qTokens rest best bestFaq
    else
      let score := ratDiv ((qTokens ∩ tokens).card : ℚ) ((max 1 tokens.card : ℕ) : ℚ)
      if best < score then faqLoop qTokens rest score (some faq)
      else faqLoop qTokens rest best bestFaq

/-- `find_relevant_faq` (src/app.py:108): returns the pair
`(faq_answer, score)` — `(none, 0)` standing for Python's `(None, 0.0)`. -/
def find_relevant_faq (faqs : List FAQ) (query : Option String) (threshold : ℚ) :
    Option String × ℚ :=
  let qTokens := (tokenize query).toFinset
  if qTokens = ∅ then (none, 0)
  else
    let r := faqLoop qTokens faqs 0 none
    match r.2 with
    | some f => if threshold ≤ r.1 then (some f.answer, round3 r.1) else (none, 0)
    | none => (none, 0)

/-! ## Escalation detector (src/app.py:128) -/

/-- `ESCALATION_KEYWORDS` (src/app.py:128). -/
def ESCALATION_KEYWORDS : List String :=
  ["hack", "hacking", "illegal", "fraud", "steal", "breach",
   "attack", "exploit", "bomb", "terror", "kill"]

/-- Substring containment on character lists (Python's `k in q`). -/
def containsSub (needle hay : List Char) : Bool :=
  (List.range (hay.length + 1)).any (fun i => needle.isPrefixOf (hay.drop i))

/-- Python `str.lower` (basic-latin model). -/
def pyLower (s : String) : String :=
  String.mk (s.data.map Char.toLower)

/-- `should_escalate` (src/app.py:133): false for a falsy (`None`/empty)
query, otherwise any-keyword substring match on the lower-cased query. -/
def should_escalate (query : Option String) : Bool :=
  match query with
  | none => false
  | some s =>
    if s = "" then false
    else ESCALATION_KEYWORDS.any (fun k => containsSub k.data (pyLower s).data)

/-! ## FAQ loader (src/app.py:78) -/

/-- JSON values, as produced by `json.load`. -/
inductive Json where
  | null
  | bool (b : Bool)
  | num (q : ℚ)
  | str (s : String)
  | arr (items : List Json)
  | obj (fields : List (String × Json))

/-- Python truthiness of a JSON value. -/
def jsonTruthy : Json → Bool
  | Json.null => false
  | Json.bool b => b
  | Json.num q => decide (q ≠ 0)
  | Json.str s => decide (s ≠ "")
  | Json.arr items => !items.isEmpty
  | Json.obj fields => !fields.isEmpty

/-- Python `dict.get(k, default)` on a JSON object's field list. -/
def jsonGet (fields : List (String × Json)) (k : String) (default : Json) : Json :=
  match fields.find? (fun p => p.1 == k) with
  | some p => p.2
  | none => default

/-- One element of the loaded `FAQ_LIST` as built by `load_faqs`
(field values are raw JSON, since nothing in `load_faqs` coerces them). -/
structure RawFaq where
  question : Json
  answer : Json
  tags : Json

/-- Log levels of the `logging` calls that `load_faqs` can make. -/
inductive LogLevel where
  | error
  | warning
  deriving DecidableEq

/-- A logging call: level and message. -/
structure LogEvent where
  level : LogLevel
  msg : String

/-- The body of the `for item in data` loop (src/app.py:88-93) for one
item: `item.get(...)` raises `AttributeError` when `item` is not an
object/dict. -/
def itemToFaq : Json → Except String RawFaq
  | Json.obj fields =>
    Except.ok
      { question := jsonGet fields "question" (Json.str ""),
        answer := jsonGet fields "answer" (Json.str ""),
        tags :=
          let t := jsonGet fields "tags" (Json.arr [])
          if jsonTruthy t then t else Json.arr [] }
  | _ => Except.error "AttributeError"

/-- The `for item in data` loop over a JSON sequence (src/app.py:88-93):
appends one built entry per item, propagating a raised error. -/
def buildFaqs : List Json → Except String (List RawFaq)
  | [] => Except.ok []
  | item :: rest =>
    match itemToFaq item with
    | Except.error e => Except.error e
    | Except.ok f => (buildFaqs rest).map (fun fs => f :: fs)

/-- `load_faqs` (src/app.py:78).  The input is `Except.error e` when
opening/parsing `faqs.json` raises (message `e`), `Except.ok data` when
`json.load` yields `data`.  The output is `Except.error` when the body
itself raises, otherwise the built list plus the emitted log events. -/
def load_faqs (source : Except String Json) :
    Except String (List RawFaq × List LogEvent) :=
  match source with
  | Except.error e =>
    Except.ok ([], [⟨LogLevel.error, "Failed to load faqs.json: " ++ e⟩])
  | Except.ok (Json.arr items) =>
    (buildFaqs items).map (fun fs => (fs, []))
  | Except.ok (Json.obj fields) =>
    Except.ok
      (fields.map (fun p =>
        { question := Json.str (p.1.replace "_" " "),
          answer := p.2,
          tags := Json.arr [] }), [])
  | Except.ok _ => Except.ok ([], [])

/-! ## The `/chat` route (src/app.py:145) -/

/-- JSON values appearing in the bodies built by `jsonify` in the routes. -/
inductive Val where
  | str (s : String)
  | num (q : ℚ)
  | bool (b : Bool)
  | nullV
  deriving DecidableEq

/-- An HTTP response: the `jsonify` body as an ordered field list, and the
status code. -/
structure ChatOutput where
  body : List (String × Val)
  status : Nat
  deriving DecidableEq

/-- What one `client.chat.completions.create` call for a configured model
yields: either the extracted `bot_reply` (after the defensive parsing of
src/app.py:201-210, which always produces a string), or the exception
message `str(e)` when the call raises. -/
inductive BackendResult where
  | success (reply : String)
  | failure (err : String)
  deriving DecidableEq

/-- Observable internal events of one `/chat` invocation: a call to
`find_relevant_faq`, an attempted backend call, and the
`logger.warning("Model %s failed: %s", ...)` on a failed attempt. -/
inductive Event where
  | matcherCall
  | llmCall (model : String)
  | warnModelFailed (model err : String)
  deriving DecidableEq

/-- The fixed handoff message used by both the rule-based branch and the
sentinel branch (src/app.py:157 and 213). -/
def escalationMessage : String :=
  "I cannot help with that. Connecting you to a human agent..."

/-- The system prompt (src/app.py:182-185). -/
def systemPrompt : String :=
  "You are a helpful and concise customer support assistant. If the user's request is illegal, harmful, or requires human intervention, reply EXACTLY with the token: ESCALATE_TO_AGENT"

/-- The sentinel token (src/app.py:212). -/
def sentinelToken : String := "ESCALATE_TO_AGENT"

/-- Python truthiness of the optional `query` / `faq_answer` strings. -/
def truthyStr (o : Option String) : Bool :=
  match o with
  | none => false
  | some s => decide (s ≠ "")

/-- The `messages` list sent to the backend (src/app.py:187-191):
system prompt, then the stored history, then the new user turn. -/
def buildMessages (db : List Message) (sid q : String) : List (String × String) :=
  ("system", systemPrompt) :: get_history db sid ++ [("user", q)]

/-- The `for model in MODEL_FALLBACKS` loop (src/app.py:194-231): returns
the first success as `(model, bot_reply)` together with the events of the
attempts made and the final `last_error`. -/
def tryBackends : List (String × BackendResult) → Option String →
    Option (String × String) × List Event × Option String
  | [], lastError => (none, [], lastError)
  | (model, BackendResult.success reply) :: _, lastError =>
    (some (model, reply), [Event.llmCall model], lastError)
  | (model, BackendResult.failure err) :: rest, _ =>
    let r := tryBackends rest (some err)
    (r.1, Event.llmCall model :: Event.warnModelFailed model err :: r.2.1, r.2.2)

/-- `Val` of Python's `last_error` (`None` or a string). -/
def optVal (o : Option String) : Val :=
  match o with
  | none => Val.nullV
  | some s => Val.str s

/-- Step 3 of `/chat`, the LLM fallback (src/app.py:180-234): build the
message list, try each configured backend in order, classify the reply by
the sentinel token, persist the turn on success; report
`"AI backend failed"` with the last error after exhaustion. -/
def llmStage (backends : List (String × BackendResult)) (db : List Message)
    (sid q : String) : ChatOutput × List Message × List Event :=
  let _messages := buildMessages db sid q
  let r := tryBackends backends none
  match r.1 with
  | some (model, botReply) =>
    let finalReply :=
      if containsSub sentinelToken.data botReply.data then escalationMessage else botReply
    let action :=
      if containsSub sentinelToken.data botReply.data then "escalated" else "responded"
    let db1 := save_message (save_message db sid "user" q) sid "assistant" finalReply
    (⟨[("response", Val.str finalReply), ("source", Val.str ("llm:" ++ model)),
       ("action", Val.str action), ("session_id", Val.str sid)], 200⟩, db1, r.2.1)
  | none =>
    (⟨[("error", Val.str "AI backend failed"), ("detail", optVal r.2.2)], 500⟩,
     db, r.2.1)

/-- The `/chat` route handler (src/app.py:145-238).  Inputs: the loaded
`FAQ_LIST`, the backend oracle for `MODEL_FALLBACKS` (what each configured
model's call yields for this invocation), the current store, and the
request's optional `session_id` and `query`.  Output: the HTTP response,
the store after the invocation, and the observable events. -/
def chat (faqs : List FAQ) (backends : List (String × BackendResult))
    (db : List Message) (sessionId : Option String) (query : Option String) :
    ChatOutput × List Message × List Event :=
  let sid := sessionId.getD "default"
  if truthyStr query = false then
    (⟨[("error", Val.str "No query provided")], 400⟩, db, [])
  else
    let q := query.getD ""
    if should_escalate query then
      let db1 := save_message (save_message db sid "user" q) sid "assistant" escalationMessage
      (⟨[("response", Val.str escalationMessage), ("source", Val.str "rule-based"),
         ("action", Val.str "escalated"), ("session_id", Val.str sid)], 200⟩, db1, [])
    else
      let fr := find_relevant_faq faqs query (mkRat 3 10)
      if truthyStr fr.1 then
        let ans := fr.1.getD ""
        let db1 := save_message (save_message db sid "user" q) sid "assistant" ans
        (⟨[("response", Val.str ans), ("source", Val.str "faq"),
           ("match_score", Val.num fr.2), ("action", Val.str "responded"),
           ("session_id", Val.str sid)], 200⟩, db1, [Event.matcherCall])
      else
        let r := llmStage backends db sid q
        (r.1, r.2.1, Event.matcherCall :: r.2.2)

/-- The `/history` route handler (src/app.py:240). -/
def historyRoute (db : List Message) (sessionId : Option String) :
    List (String × String) :=
  get_history db (sessionId.getD "default")

/-- The `/clear_history` route handler (src/app.py:245): DELETE of the
session's rows, and the `{"cleared": true, "session_id": ...}` body. -/
def clear_history (db : List Message) (sessionId : Option String) :
    List Message × List (String × Val) :=
  let sid := sessionId.getD "default"
  (db.filter (fun m => !(m.session_id == sid)),
   [("cleared", Val.bool true), ("session_id", Val.str sid)])

/-! ## Statement-side definitions -/

/-- Looks a field up in a response body. -/
def bodyGet (out : ChatOutput) (k : String) : Option Val :=
  (out.body.find? (fun p => p.1 == k)).map (fun p => p.2)

/-- Spec-side description of the matcher (section 4.3 of the spec, claim
C3): tokenize the query into the set `Q` (none if empty); score each entry
with a nonempty vocabulary `T` by `|Q ∩ T| / max 1 |T|`; take the
maximum-scoring entry with ties resolved to the first in loaded order;
return its answer with the score rounded to 3 decimals when the best score
reaches the threshold, otherwise none. -/
def matcherSpec (faqs : List FAQ) (query : Option String) (threshold : ℚ) :
    Option String × ℚ :=
  let q := (tokenize query).toFinset
  if q = ∅ then (none, 0)
  else
    let scored := faqs.filterMap (fun f =>
      let t := (tokenize (some (faqCombined f))).toFinset
      if t = ∅ then none
      else some (f, ratDiv (((q ∩ t).card : ℕ) : ℚ) ((max 1 t.card : ℕ) : ℚ)))
    let best := scored.foldr (fun p m => max p.2 m) 0
    match scored.find? (fun p => decide (p.2 = best)) with
    | some p => if threshold ≤ p.2 then (some p.1.answer, round3 p.2) else (none, 0)
    | none => (none, 0)

/-- The first successful backend of the configured list, with its reply. -/
def firstSuccess : List (String × BackendResult) → Option (String × String)
  | [] => none
  | (model, BackendResult.success reply) :: _ => some (model, reply)
  | (_, BackendResult.failure _) :: rest => firstSuccess rest

/-- The events the backend loop emits: one attempted call per backend up
to and including the first success, plus one warning per failure. -/
def backendEvents : List (String × BackendResult) → List Event
  | [] => []
  | (model, BackendResult.success _) :: _ => [Event.llmCall model]
  | (model, BackendResult.failure err) :: rest =>
    Event.llmCall model :: Event.warnModelFailed model err :: backendEvents rest

/-- The value of `last_error` after the backend loop. -/
def lastErrOf : List (String × BackendResult) → Option String → Option String
  | [], le => le
  | (_, BackendResult.success _) :: _, le => le
  | (_, BackendResult.failure err) :: rest, _ => lastErrOf rest (some err)

/-- Backend descriptors that all fail, from a list of (model, error)
pairs. -/
def asFailures (fails : List (String × String)) : List (String × BackendResult) :=
  fails.map (fun p => (p.1, BackendResult.failure p.2))

/-- The event trail of a run of failing backends. -/
def failEvents : List (String × String) → List Event
  | [] => []
  | p :: rest => Event.llmCall p.1 :: Event.warnModelFailed p.1 p.2 :: failEvents rest

/-- Helper loop over pre-scored entries, mirroring `faqLoop` with the
tokenising and the empty-vocabulary skip already performed. -/
def scoreLoop : List (FAQ × ℚ) → ℚ → Option FAQ → ℚ × Option FAQ
  | [], best, bestFaq => (best, bestFaq)
  | p :: rest, best, bestFaq =>
    if best < p.2 then scoreLoop rest p.2 (some p.1)
    else scoreLoop rest best bestFaq

/-! # Helper lemmas -/

theorem ratDiv_eq_div (a b : ℚ) : ratDiv a b = a / b := by
  rw [ratDiv, Rat.divInt_eq_div]
  rcases eq_or_ne b 0 with rfl | hb
  · simp
  · have hbn : (b.num : ℚ) ≠ 0 := by
      exact_mod_cast Rat.num_ne_zero.mpr hb
    have had : ((a.den : ℕ) : ℚ) ≠ 0 := by
      exact_mod_cast a.den_nz
    have hbd : ((b.den : ℕ) : ℚ) ≠ 0 := by
      exact_mod_cast b.den_nz
    conv_rhs => rw [← Rat.num_div_den a, ← Rat.num_div_den b]
    push_cast
    field_simp

theorem get_history_append (db1 db2 : List Message) (s : String) :
    get_history (db1 ++ db2) s = get_history db1 s ++ get_history db2 s := by
  simp [get_history, List.filter_append]

attribute [local semireducible] Rat.mul Rat.add Rat.sub Rat.inv

/-! # Claims about the conversation store -/

/-- C9: history returns the session's messages in creation order with
roles normalised to {user, assistant}; appending the user/assistant pair
to a fresh session yields exactly that two-element history; clearing a
session empties its history, is idempotent, and always reports
cleared=true with the session id. -/
theorem claim_C9_store (db : List Message) (s : String) (so : Option String)
    (h : get_history db s = []) :
    (∀ db' : List Message, ∀ s' : String, ∀ p ∈ get_history db' s',
        p.1 = "user" ∨ p.1 = "assistant") ∧
    get_history (save_message (save_message db s "user" "hi") s "assistant" "hello") s
      = [("user", "hi"), ("assistant", "hello")] ∧
    get_history (clear_history db so).1 (so.getD "default") = [] ∧
    (clear_history (clear_history db so).1 so).1 = (clear_history db so).1 ∧
    (clear_history db so).2
      = [("cleared", Val.bool true), ("session_id", Val.str (so.getD "default"))] := by
  refine ⟨?_, ?_, ?_, ?_, rfl⟩
  · intro db' s' p hp
    simp only [get_history, List.mem_map, List.mem_filter] at hp
    obtain ⟨m, _, rfl⟩ := hp
    by_cases hr : m.role == "assistant"
    · right; simp [hr]
    · left; simp [hr]
  · have hdb : db.filter (fun m => m.session_id == s) = [] := by
      have h2 := h
      unfold get_history at h2
      exact List.map_eq_nil_iff.mp h2
    simp [save_message, get_history, List.filter_append, hdb]
  · simp [clear_history, get_history, List.filter_filter]
  · simp [clear_history, List.filter_filter]

/-- Witness for C9 at the concrete store `[]`, session "s1". -/
theorem claim_C9_store_witness :
    get_history (save_message (save_message [] "s1" "user" "hi") "s1" "assistant" "hello") "s1"
      = [("user", "hi"), ("assistant", "hello")] :=
  (claim_C9_store [] "s1" (some "s1") rfl).2.1

/-- C10: retrieval keeps every stored message of the session, in order,
mapping the role to "assistant" exactly when it is stored as "assistant"
and to "user" in every other case (so an unexpected role such as "system"
comes back as a user turn, neither dropped nor passed through). -/
theorem claim_C10_role_normalisation (db : List Message) (s : String) :
    List.Forall₂ (fun (m : Message) (p : String × String) =>
        p.2 = m.content ∧ (m.role = "assistant" → p.1 = "assistant") ∧
          (m.role ≠ "assistant" → p.1 = "user"))
      (db.filter (fun m => m.session_id == s)) (get_history db s) := by
  unfold get_history
  rw [List.forall₂_map_right_iff, List.forall₂_same]
  intro m _
  refine ⟨rfl, ?_, ?_⟩
  · intro hr; simp [hr]
  · intro hr; simp [hr]

/-! # Claims about the FAQ loader -/

theorem buildFaqs_objs (objs : List (List (String × Json))) :
    buildFaqs (objs.map Json.obj) = Except.ok (objs.map (fun fl =>
      { question := jsonGet fl "question" (Json.str ""),
        answer := jsonGet fl "answer" (Json.str ""),
        tags :=
          let t := jsonGet fl "tags" (Json.arr [])
          if jsonTruthy t then t else Json.arr [] })) := by
  induction objs with
  | nil => rfl
  | cons fl rest ih => simp [buildFaqs, itemToFaq, ih, Except.map]

theorem buildFaqs_non_object (objs : List (List (String × Json))) (q : ℚ)
    (rest : List Json) :
    buildFaqs (objs.map Json.obj ++ Json.num q :: rest) = Except.error "AttributeError" := by
  induction objs with
  | nil => rfl
  | cons fl tl ih => simp [buildFaqs, itemToFaq, ih, Except.map]

/-- C6 counterexample: on a malformed source, `load_faqs` does not fail
softly with a warning.  A parsed sequence containing a non-object item
makes it raise, and the unreadable-source log is at error level, not
warning level. -/
theorem claim_C6_counterexample :
    load_faqs (Except.ok (Json.arr [Json.num 1])) = Except.error "AttributeError" ∧
    load_faqs (Except.error "boom")
      = Except.ok ([], [⟨LogLevel.error, "Failed to load faqs.json: boom"⟩]) :=
  ⟨rfl, rfl⟩

/-- C6 amended: an unreadable/unparseable source yields an empty list with
one error-level log; a parsed scalar yields an empty list silently; a
sequence of objects maps each to {question, answer, tags} with defaults
("" for missing question/answer, falsy tags replaced by []); a mapping
yields one entry per key with the question derived by replacing
underscores with spaces and empty tags; a sequence containing a non-object
item raises instead of failing softly. -/
theorem claim_C6_amended (e : String) (b : Bool) (q : ℚ) (s : String)
    (objs : List (List (String × Json))) (fields : List (String × Json))
    (rest : List Json) :
    load_faqs (Except.error e)
      = Except.ok ([], [⟨LogLevel.error, "Failed to load faqs.json: " ++ e⟩]) ∧
    load_faqs (Except.ok Json.null) = Except.ok ([], []) ∧
    load_faqs (Except.ok (Json.bool b)) = Except.ok ([], []) ∧
    load_faqs (Except.ok (Json.num q)) = Except.ok ([], []) ∧
    load_faqs (Except.ok (Json.str s)) = Except.ok ([], []) ∧
    load_faqs (Except.ok (Json.arr (objs.map Json.obj)))
      = Except.ok (objs.map (fun fl =>
          { question := jsonGet fl "question" (Json.str ""),
            answer := jsonGet fl "answer" (Json.str ""),
            tags :=
              let t := jsonGet fl "tags" (Json.arr [])
              if jsonTruthy t then t else Json.arr [] }), []) ∧
    load_faqs (Except.ok (Json.obj fields))
      = Except.ok (fields.map (fun p =>
          { question := Json.str (p.1.replace "_" " "),
            answer := p.2,
            tags := Json.arr [] }), []) ∧
    load_faqs (Except.ok (Json.arr (objs.map Json.obj ++ Json.num q :: rest)))
      = Except.error "AttributeError" := by
  refine ⟨rfl, rfl, rfl, rfl, rfl, ?_, rfl, ?_⟩
  · simp [load_faqs, buildFaqs_objs, Except.map]
  · simp [load_faqs, buildFaqs_non_object, Except.map]

/-! # Tokenizer lemmas -/

theorem charToLower_idem (c : Char) :
    Char.toLower (Char.toLower c) = Char.toLower c := by
  by_cases h : c.toNat ≥ 65 ∧ c.toNat ≤ 90
  · have hc : Char.toLower c = Char.ofNat (c.toNat + 32) := by
      simp only [Char.toLower]
      rw [if_pos h]
    rw [hc]
    obtain ⟨h1, h2⟩ := h
    generalize c.toNat = n at h1 h2 ⊢
    interval_cases n <;> decide
  · have hc : Char.toLower c = c := by
      simp only [Char.toLower]
      rw [if_neg h]
    rw [hc, hc]

theorem pySplitAux_mem_no_ws (cs : List Char) : ∀ (acc : List Char),
    (∀ c ∈ acc, c.isWhitespace = false) →
    ∀ w ∈ pySplitAux cs acc, w ≠ [] ∧ ∀ c ∈ w, c.isWhitespace = false := by
  induction cs with
  | nil =>
    intro acc hacc w hw
    cases acc with
    | nil => simp [pySplitAux] at hw
    | cons a as =>
      simp only [pySplitAux, List.isEmpty_cons, if_false, Bool.false_eq_true,
        List.mem_singleton] at hw
      subst hw
      refine ⟨by simp, ?_⟩
      intro c hc
      exact hacc c (List.mem_reverse.mp hc)
  | cons c rest ih =>
    intro acc hacc w hw
    by_cases hc : c.isWhitespace
    · cases acc with
      | nil =>
        simp only [pySplitAux, hc, if_true, List.isEmpty_nil] at hw
        exact ih [] (by simp) w hw
      | cons a as =>
        simp only [pySplitAux, hc, if_true, List.isEmpty_cons, Bool.false_eq_true,
          if_false, List.mem_cons] at hw
        rcases hw with hw | hw
        · subst hw
          refine ⟨by simp, ?_⟩
          intro d hd
          exact hacc d (List.mem_reverse.mp hd)
        · exact ih [] (by simp) w hw
    · simp only [pySplitAux, hc, if_false] at hw
      refine ih (c :: acc) ?_ w hw
      intro d hd
      rcases List.mem_cons.mp hd with hd | hd
      · subst hd; simpa using hc
      · exact hacc d hd

theorem pySplitAux_mem_subset (cs : List Char) : ∀ (acc : List Char),
    ∀ w ∈ pySplitAux cs acc, ∀ c ∈ w, c ∈ cs ∨ c ∈ acc := by
  induction cs with
  | nil =>
    intro acc w hw d hd
    cases acc with
    | nil => simp [pySplitAux] at hw
    | cons a as =>
      simp only [pySplitAux, List.isEmpty_cons, Bool.false_eq_true, if_false,
        List.mem_singleton] at hw
      subst hw
      exact Or.inr (List.mem_reverse.mp hd)
  | cons c rest ih =>
    intro acc w hw d hd
    by_cases hc : c.isWhitespace
    · cases acc with
      | nil =>
        simp only [pySplitAux, hc, if_true, List.isEmpty_nil] at hw
        rcases ih [] w hw d hd with h | h
        · exact Or.inl (List.mem_cons_of_mem _ h)
        · simp at h
      | cons a as =>
        simp only [pySplitAux, hc, if_true, List.isEmpty_cons, Bool.false_eq_true,
          if_false, List.mem_cons] at hw
        rcases hw with hw | hw
        · subst hw
          exact Or.inr (List.mem_reverse.mp hd)
        · rcases ih [] w hw d hd with h | h
          · exact Or.inl (List.mem_cons_of_mem _ h)
          · simp at h
    · simp only [pySplitAux, hc, if_false] at hw
      rcases ih (c :: acc) w hw d hd with h | h
      · exact Or.inl (List.mem_cons_of_mem _ h)
      · rcases List.mem_cons.mp h with h | h
        · subst h; exact Or.inl (List.mem_cons_self _ _)
        · exact Or.inr h

theorem pySplitAux_clean (w : List Char) : ∀ (acc : List Char),
    (∀ c ∈ w, c.isWhitespace = false) → acc.reverse ++ w ≠ [] →
    pySplitAux w acc = [acc.reverse ++ w] := by
  induction w with
  | nil =>
    intro acc _ hne
    cases acc with
    | nil => simp at hne
    | cons a as => simp [pySplitAux]
  | cons c w2 ih =>
    intro acc hws hne
    have hc : c.isWhitespace = false := hws c (List.mem_cons_self _ _)
    simp only [pySplitAux, hc, Bool.false_eq_true, if_false]
    rw [ih (c :: acc) (fun d hd => hws d (List.mem_cons_of_mem _ hd)) (by simp)]
    simp

theorem pySplitAux_word_append (w t : List Char) : ∀ (acc : List Char),
    (∀ c ∈ w, c.isWhitespace = false) → acc.reverse ++ w ≠ [] →
    pySplitAux (w ++ ' ' :: t) acc = (acc.reverse ++ w) :: pySplitAux t [] := by
  induction w with
  | nil =>
    intro acc _ hne
    cases acc with
    | nil => simp at hne
    | cons a as =>
      simp [pySplitAux, show (' ' : Char).isWhitespace = true from rfl]
  | cons c w2 ih =>
    intro acc hws hne
    have hc : c.isWhitespace = false := hws c (List.mem_cons_self _ _)
    simp only [List.cons_append, pySplitAux, hc, Bool.false_eq_true, if_false,
      List.append_eq]
    rw [ih (c :: acc) (fun d hd => hws d (List.mem_cons_of_mem _ hd)) (by simp)]
    simp

theorem pySplit_mem_no_ws (cs : List Char) :
    ∀ w ∈ pySplit cs, w ≠ [] ∧ ∀ c ∈ w, c.isWhitespace = false :=
  pySplitAux_mem_no_ws cs [] (by simp)

theorem pySplit_mem_subset (cs : List Char) :
    ∀ w ∈ pySplit cs, ∀ c ∈ w, c ∈ cs := by
  intro w hw d hd
  rcases pySplitAux_mem_subset cs [] w hw d hd with h | h
  · exact h
  · simp at h

theorem pySplit_clean (w : List Char) (hne : w ≠ [])
    (hws : ∀ c ∈ w, c.isWhitespace = false) : pySplit w = [w] := by
  unfold pySplit
  rw [pySplitAux_clean w [] hws (by simpa)]
  simp

theorem pySplit_word_append (w t : List Char) (hne : w ≠ [])
    (hws : ∀ c ∈ w, c.isWhitespace = false) :
    pySplit (w ++ ' ' :: t) = w :: pySplit t := by
  unfold pySplit
  rw [pySplitAux_word_append w t [] hws (by simpa)]
  simp

theorem map_eq_self_of_mem {α : Type} (l : List α) (f : α → α)
    (h : ∀ c ∈ l, f c = c) : l.map f = l := by
  induction l with
  | nil => rfl
  | cons a rest ih =>
    rw [List.map_cons, h a (List.mem_cons_self _ _),
      ih (fun c hc => h c (List.mem_cons_of_mem _ hc))]

theorem joinSpace_data_mem (ws : List String) :
    ∀ c ∈ (joinSpace ws).data, c = ' ' ∨ ∃ w ∈ ws, c ∈ w.data := by
  induction ws with
  | nil => intro c hc; simp [joinSpace] at hc
  | cons w rest ih =>
    cases rest with
    | nil =>
      intro c hc
      exact Or.inr ⟨w, List.mem_cons_self _ _, by simpa [joinSpace] using hc⟩
    | cons v rest2 =>
      intro c hc
      have hj : joinSpace (w :: v :: rest2) = w ++ " " ++ joinSpace (v :: rest2) := rfl
      rw [hj] at hc
      simp only [String.data_append, List.mem_append] at hc
      rcases hc with (hc | hc) | hc
      · exact Or.inr ⟨w, List.mem_cons_self _ _, hc⟩
      · left
        simpa using hc
      · rcases ih c hc with h | ⟨w2, hw2, hcw⟩
        · exact Or.inl h
        · exact Or.inr ⟨w2, List.mem_cons_of_mem _ hw2, hcw⟩

theorem pySplit_joinSpace (ws : List String)
    (h : ∀ w ∈ ws, w.data ≠ [] ∧ ∀ c ∈ w.data, c.isWhitespace = false) :
    pySplit (joinSpace ws).data = ws.map String.data := by
  induction ws with
  | nil => simp [joinSpace, pySplit, pySplitAux]
  | cons w rest ih =>
    cases rest with
    | nil =>
      have hw := h w (List.mem_cons_self _ _)
      simpa [joinSpace] using pySplit_clean w.data hw.1 hw.2
    | cons v rest2 =>
      have hw := h w (List.mem_cons_self _ _)
      have hj : joinSpace (w :: v :: rest2) = w ++ " " ++ joinSpace (v :: rest2) := rfl
      rw [hj]
      have hdata : (w ++ " " ++ joinSpace (v :: rest2)).data
          = w.data ++ ' ' :: (joinSpace (v :: rest2)).data := by
        simp [String.data_append]
      rw [hdata, pySplit_word_append w.data _ hw.1 hw.2,
        ih (fun x hx => h x (List.mem_cons_of_mem _ hx))]
      simp

theorem tokenize_token_facts (t : Option String) :
    ∀ w ∈ tokenize t, 1 < w.data.length ∧ w.data ≠ [] ∧ ∀ c ∈ w.data,
      c.isWhitespace = false ∧ Char.toLower c = c ∧ pyMapChar c = c := by
  intro w hw
  simp only [tokenize, List.mem_map, List.mem_filter] at hw
  obtain ⟨u, ⟨hu, hlen⟩, rfl⟩ := hw
  have hdata : (String.mk u).data = u := rfl
  rw [hdata]
  have hlen2 : 1 < u.length := by simpa using hlen
  refine ⟨hlen2, ?_, ?_⟩
  · intro hnil
    rw [hnil] at hlen2
    simp at hlen2
  · intro c hc
    have hnws := (pySplit_mem_no_ws _ u hu).2 c hc
    have hmem := pySplit_mem_subset _ u hu c hc
    rw [List.map_map] at hmem
    simp only [List.mem_map, Function.comp_apply] at hmem
    obtain ⟨e, -, rfl⟩ := hmem
    by_cases ha : Char.isAlphanum (Char.toLower e)
    · have hfix : pyMapChar (Char.toLower e) = Char.toLower e := by
        simp [pyMapChar, ha]
      rw [hfix] at hnws ⊢
      exact ⟨hnws, charToLower_idem e, hfix⟩
    · have hsp : pyMapChar (Char.toLower e) = ' ' := by
        simp [pyMapChar, ha]
      rw [hsp] at hnws
      exact absurd hnws (by decide)

theorem tokenize_joinSpace_roundtrip (ts : List String)
    (h : ∀ w ∈ ts, 1 < w.data.length ∧ w.data ≠ [] ∧ ∀ c ∈ w.data,
      c.isWhitespace = false ∧ Char.toLower c = c ∧ pyMapChar c = c) :
    tokenize (some (joinSpace ts)) = ts := by
  cases hts : ts with
  | nil => rfl
  | cons w0 rest0 =>
    subst hts
    have hne : joinSpace (w0 :: rest0) ≠ "" := by
      intro hempty
      have hdata0 : (joinSpace (w0 :: rest0)).data = [] := by
        rw [hempty]
      have hw0 := h w0 (List.mem_cons_self _ _)
      cases rest0 with
      | nil => exact hw0.2.1 (by simpa [joinSpace] using hdata0)
      | cons v rest2 =>
        have hj : joinSpace (w0 :: v :: rest2) = w0 ++ " " ++ joinSpace (v :: rest2) := rfl
        rw [hj] at hdata0
        simp [String.data_append, List.append_eq_nil] at hdata0
    have horEmpty : orEmpty (some (joinSpace (w0 :: rest0))) = joinSpace (w0 :: rest0) := by
      simp [orEmpty, hne]
    -- every character of the joined text is left unchanged by lowering and
    -- by the alphanumeric-to-space map
    have hfixed : ∀ c ∈ (joinSpace (w0 :: rest0)).data,
        Char.toLower c = c ∧ pyMapChar c = c := by
      intro c hc
      rcases joinSpace_data_mem _ c hc with rfl | ⟨w, hw, hcw⟩
      · exact ⟨rfl, rfl⟩
      · exact ⟨((h w hw).2.2 c hcw).2.1, ((h w hw).2.2 c hcw).2.2⟩
    show ((pySplit (((orEmpty (some (joinSpace (w0 :: rest0)))).data.map Char.toLower).map
        pyMapChar)).filter (fun w => 1 < w.length)).map String.mk = w0 :: rest0
    rw [horEmpty,
      map_eq_self_of_mem _ _ (fun c hc => (hfixed c hc).1),
      map_eq_self_of_mem _ _ (fun c hc => (hfixed c hc).2),
      pySplit_joinSpace (w0 :: rest0)
        (fun w hw => ⟨(h w hw).2.1, fun c hc => ((h w hw).2.2 c hc).1⟩),
      List.filter_eq_self.mpr ?_]
    · rw [List.map_map]
      exact map_eq_self_of_mem _ _ (fun w _ => rfl)
    · intro u hu
      simp only [List.mem_map] at hu
      obtain ⟨w, hw, rfl⟩ := hu
      simpa using (h w hw).1

/-! # Claim about the tokenizer -/

/-- C8: tokenize is idempotent on its output vocabulary — in fact
re-tokenizing the space-joined tokens returns the very same token list,
hence the same token set — its tokens all have length > 1, and a null or
empty input yields the empty sequence. -/
theorem claim_C8_tokenize (t : Option String) :
    tokenize (some (joinSpace (tokenize t))) = tokenize t ∧
    (tokenize (some (joinSpace (tokenize t)))).toFinset = (tokenize t).toFinset ∧
    (∀ w ∈ tokenize t, ¬ w.length ≤ 1) ∧
    tokenize none = [] ∧ tokenize (some "") = [] := by
  have hmain := tokenize_joinSpace_roundtrip (tokenize t) (tokenize_token_facts t)
  refine ⟨hmain, by rw [hmain], ?_, rfl, rfl⟩
  intro w hw
  have hlen := (tokenize_token_facts t w hw).1
  have : w.length = w.data.length := rfl
  omega

/-! # Matcher lemmas -/

theorem le_foldrMax (l : List (FAQ × ℚ)) (b : ℚ) :
    b ≤ l.foldr (fun p m => max p.2 m) b := by
  induction l with
  | nil => exact le_refl b
  | cons p rest ih => exact le_trans ih (le_max_right _ _)

theorem foldrMax_init (l : List (FAQ × ℚ)) (a c : ℚ) :
    l.foldr (fun p m => max p.2 m) (max a c)
      = max (l.foldr (fun p m => max p.2 m) a) c := by
  induction l with
  | nil => rfl
  | cons p rest ih =>
    rw [List.foldr_cons, ih, List.foldr_cons, ← max_assoc]

theorem foldrMax_mem (l : List (FAQ × ℚ)) (b : ℚ) :
    l.foldr (fun p m => max p.2 m) b = b ∨
      ∃ p ∈ l, p.2 = l.foldr (fun p m => max p.2 m) b := by
  induction l with
  | nil => exact Or.inl rfl
  | cons p rest ih =>
    rcases max_cases p.2 (rest.foldr (fun p m => max p.2 m) b) with ⟨heq, -⟩ | ⟨heq, -⟩
    · right
      exact ⟨p, List.mem_cons_self _ _, by rw [List.foldr_cons, heq]⟩
    · rcases ih with h | ⟨p2, hp2, hval⟩
      · left
        rw [List.foldr_cons, heq, h]
      · right
        exact ⟨p2, List.mem_cons_of_mem _ hp2, by rw [List.foldr_cons, heq, hval]⟩

theorem scoreLoop_eq (l : List (FAQ × ℚ)) : ∀ (b : ℚ) (bf : Option FAQ),
    scoreLoop l b bf =
      (l.foldr (fun p m => max p.2 m) b,
       if l.foldr (fun p m => max p.2 m) b = b then bf
       else (l.find? (fun p =>
         decide (p.2 = l.foldr (fun q m => max q.2 m) b))).map Prod.fst) := by
  induction l with
  | nil =>
    intro b bf
    simp [scoreLoop]
  | cons p rest ih =>
    intro b bf
    obtain ⟨f, s⟩ := p
    simp only [scoreLoop, List.foldr_cons]
    by_cases hbs : b < s
    · rw [if_pos hbs, ih s (some f)]
      have hMs : rest.foldr (fun p m => max p.2 m) s
          = max s (rest.foldr (fun p m => max p.2 m) b) := by
        have h1 : max b s = s := max_eq_right (le_of_lt hbs)
        conv_lhs => rw [← h1]
        rw [foldrMax_init, max_comm]
      have hM : max s (rest.foldr (fun p m => max p.2 m) b)
          ≠ b := by
        intro h
        have := le_max_left s (rest.foldr (fun p m => max p.2 m) b)
        rw [h] at this
        exact absurd (lt_of_lt_of_le hbs this) (lt_irrefl b)
      rw [if_neg hM]
      by_cases hMeq : rest.foldr (fun p m => max p.2 m) s = s
      · rw [if_pos hMeq]
        have hfind : List.find? (fun p =>
            decide (p.2 = max s (rest.foldr (fun q m => max q.2 m) b))) ((f, s) :: rest)
            = some (f, s) := by
          apply List.find?_cons_of_pos
          simp only [decide_eq_true_eq]
          rw [← hMs, hMeq]
        rw [hfind, hMs]
        simp
      · rw [if_neg hMeq]
        have hne : s ≠ max s (rest.foldr (fun q m => max q.2 m) b) := by
          rw [← hMs]
          intro h
          exact hMeq h.symm
        have hfind : List.find? (fun p =>
            decide (p.2 = max s (rest.foldr (fun q m => max q.2 m) b))) ((f, s) :: rest)
            = List.find? (fun p =>
            decide (p.2 = max s (rest.foldr (fun q m => max q.2 m) b))) rest := by
          apply List.find?_cons_of_neg
          simpa using hne
        rw [hfind, ← hMs]
    · rw [if_neg hbs, ih b bf]
      push_neg at hbs
      have hM : max s (rest.foldr (fun p m => max p.2 m) b)
          = rest.foldr (fun p m => max p.2 m) b :=
        max_eq_right (le_trans hbs (le_foldrMax rest b))
      simp only [hM]
      by_cases hMb : rest.foldr (fun p m => max p.2 m) b = b
      · simp only [if_pos hMb]
      · simp only [if_neg hMb]
        have hsM : ¬ (s = rest.foldr (fun q m => max q.2 m) b) := by
          intro h
          apply hMb
          have hge := le_foldrMax rest b
          have : rest.foldr (fun q m => max q.2 m) b ≤ b := h ▸ hbs
          exact le_antisymm this hge
        have hfind : List.find? (fun p =>
            decide (p.2 = rest.foldr (fun q m => max q.2 m) b)) ((f, s) :: rest)
            = List.find? (fun p =>
            decide (p.2 = rest.foldr (fun q m => max q.2 m) b)) rest := by
          apply List.find?_cons_of_neg
          simpa using hsM
        rw [hfind]

theorem faqLoop_eq_scoreLoop (q : Finset String) (faqs : List FAQ) :
    ∀ (b : ℚ) (bf : Option FAQ),
    faqLoop q faqs b bf =
      scoreLoop (faqs.filterMap (fun f =>
        let t := (tokenize (some (faqCombined f))).toFinset
        if t = ∅ then none
        else some (f, ratDiv (((q ∩ t).card : ℕ) : ℚ) ((max 1 t.card : ℕ) : ℚ)))) b bf := by
  induction faqs with
  | nil => intro b bf; rfl
  | cons f rest ih =>
    intro b bf
    simp only [faqLoop, List.filterMap_cons]
    by_cases ht : (tokenize (some (faqCombined f))).toFinset = ∅
    · rw [if_pos ht, if_pos ht]
      exact ih b bf
    · rw [if_neg ht, if_neg ht]
      generalize ratDiv
          (((q ∩ (tokenize (some (faqCombined f))).toFinset).card : ℕ) : ℚ)
          ((max 1 (tokenize (some (faqCombined f))).toFinset.card : ℕ) : ℚ) = s
      show (if b < s then faqLoop q rest s (some f) else faqLoop q rest b bf)
        = scoreLoop ((f, s) :: rest.filterMap (fun f =>
            let t := (tokenize (some (faqCombined f))).toFinset
            if t = ∅ then none
            else some (f, ratDiv (((q ∩ t).card : ℕ) : ℚ)
              ((max 1 t.card : ℕ) : ℚ)))) b bf
      simp only [scoreLoop]
      by_cases hlt : b < s
      · rw [if_pos hlt, if_pos hlt]
        exact ih _ _
      · rw [if_neg hlt, if_neg hlt]
        exact ih b bf

theorem matchSpec_align (l : List (FAQ × ℚ)) (threshold : ℚ) (hpos : 0 < threshold) :
    (match (scoreLoop l 0 none).2 with
     | some f =>
       if threshold ≤ (scoreLoop l 0 none).1 then
         (some f.answer, round3 (scoreLoop l 0 none).1)
       else ((none : Option String), (0 : ℚ))
     | none => ((none : Option String), (0 : ℚ)))
    = (match l.find? (fun p => decide (p.2 = l.foldr (fun p m => max p.2 m) 0)) with
       | some p =>
         if threshold ≤ p.2 then (some p.1.answer, round3 p.2)
         else ((none : Option String), (0 : ℚ))
       | none => ((none : Option String), (0 : ℚ))) := by
  rw [scoreLoop_eq]
  by_cases hM0 : l.foldr (fun p m => max p.2 m) 0 = 0
  · rw [hM0, if_pos rfl]
    cases hfind : l.find? (fun p => decide (p.2 = (0 : ℚ))) with
    | none => rfl
    | some p =>
      have hp0 : p.2 = 0 := by simpa using List.find?_some hfind
      simp [hp0, not_le.mpr hpos]
  · rw [if_neg hM0]
    cases hfind : l.find?
        (fun p => decide (p.2 = l.foldr (fun p m => max p.2 m) 0)) with
    | none => rfl
    | some p =>
      have hpM : p.2 = l.foldr (fun p m => max p.2 m) 0 := by
        simpa using List.find?_some hfind
      simp [← hpM]

/-! # Claim about the matcher -/

/-- C3: `find_relevant_faq` implements the spec-side description
`matcherSpec` for any positive threshold (in particular the default 0.3):
empty query vocabulary yields none; entries with empty vocabulary are
skipped; each remaining entry scores |Q ∩ T| / max 1 |T|; the
maximum-scoring entry wins with ties resolved to the first in loaded
order; its answer is returned with the score rounded to 3 decimals exactly
when the best score reaches the threshold, and none otherwise. -/
theorem claim_C3_matcher (faqs : List FAQ) (query : Option String)
    (threshold : ℚ) (hpos : 0 < threshold) :
    find_relevant_faq faqs query threshold = matcherSpec faqs query threshold := by
  simp only [find_relevant_faq, matcherSpec]
  by_cases hq : (tokenize query).toFinset = ∅
  · rw [if_pos hq, if_pos hq]
  · rw [if_neg hq, if_neg hq, faqLoop_eq_scoreLoop]
    exact matchSpec_align _ threshold hpos

/-- Witness for C3 at the concrete single-entry knowledge base of the
spec's test properties and a concrete query, with the default threshold. -/
theorem claim_C3_matcher_witness :
    (0 : ℚ) < mkRat 3 10 ∧
    find_relevant_faq [⟨"reset password", "Go to settings", ["account"]⟩]
        (some "how do I reset my password") (mkRat 3 10)
      = matcherSpec [⟨"reset password", "Go to settings", ["account"]⟩]
        (some "how do I reset my password") (mkRat 3 10) :=
  ⟨by decide,
   claim_C3_matcher [⟨"reset password", "Go to settings", ["account"]⟩]
     (some "how do I reset my password") (mkRat 3 10) (by decide)⟩

/-! # Pipeline lemmas -/

theorem tryBackends_eq (l : List (String × BackendResult)) : ∀ (le : Option String),
    tryBackends l le = (firstSuccess l, backendEvents l, lastErrOf l le) := by
  induction l with
  | nil => intro le; rfl
  | cons b rest ih =>
    intro le
    obtain ⟨mn, r⟩ := b
    cases r with
    | success reply => rfl
    | failure err =>
      simp only [tryBackends, firstSuccess, backendEvents, lastErrOf, ih (some err)]

theorem firstSuccess_asFailures_append (fails : List (String × String))
    (tail : List (String × BackendResult)) :
    firstSuccess (asFailures fails ++ tail) = firstSuccess tail := by
  induction fails with
  | nil => rfl
  | cons p rest ih => simpa [asFailures, firstSuccess] using ih

theorem backendEvents_asFailures_append (fails : List (String × String))
    (tail : List (String × BackendResult)) :
    backendEvents (asFailures fails ++ tail)
      = failEvents fails ++ backendEvents tail := by
  induction fails with
  | nil => rfl
  | cons p rest ih =>
    show Event.llmCall p.1 :: Event.warnModelFailed p.1 p.2 ::
        backendEvents (asFailures rest ++ tail)
      = (Event.llmCall p.1 :: Event.warnModelFailed p.1 p.2 :: failEvents rest)
        ++ backendEvents tail
    rw [ih]
    rfl

theorem firstSuccess_asFailures (fails : List (String × String)) :
    firstSuccess (asFailures fails) = none := by
  have h := firstSuccess_asFailures_append fails []
  simpa using h

theorem backendEvents_asFailures (fails : List (String × String)) :
    backendEvents (asFailures fails) = failEvents fails := by
  have h := backendEvents_asFailures_append fails []
  simpa [backendEvents] using h

theorem lastErrOf_asFailures_ne (fails : List (String × String)) : ∀ (le : Option String),
    fails ≠ [] → lastErrOf (asFailures fails) le = (fails.getLast?).map Prod.snd := by
  induction fails with
  | nil => intro le h; exact absurd rfl h
  | cons p rest ih =>
    intro le _
    cases rest with
    | nil => rfl
    | cons q rest2 =>
      have h2 : lastErrOf (asFailures (p :: q :: rest2)) le
          = lastErrOf (asFailures (q :: rest2)) (some p.2) := rfl
      rw [h2, ih (some p.2) (by simp), List.getLast?_cons_cons]

theorem lastErrOf_asFailures_none (fails : List (String × String)) :
    lastErrOf (asFailures fails) none = (fails.getLast?).map Prod.snd := by
  cases fails with
  | nil => rfl
  | cons p rest => exact lastErrOf_asFailures_ne (p :: rest) none (by simp)

theorem llmStage_success (fails : List (String × String)) (m r : String)
    (rest : List (String × BackendResult)) (db : List Message) (sid q : String) :
    llmStage (asFailures fails ++ (m, BackendResult.success r) :: rest) db sid q
      = (⟨[("response", Val.str (if containsSub sentinelToken.data r.data then
              escalationMessage else r)),
           ("source", Val.str ("llm:" ++ m)),
           ("action", Val.str (if containsSub sentinelToken.data r.data then
              "escalated" else "responded")),
           ("session_id", Val.str sid)], 200⟩,
         save_message (save_message db sid "user" q) sid "assistant"
           (if containsSub sentinelToken.data r.data then escalationMessage else r),
         failEvents fails ++ [Event.llmCall m]) := by
  simp only [llmStage, tryBackends_eq, firstSuccess_asFailures_append,
    backendEvents_asFailures_append, firstSuccess, backendEvents]

theorem llmStage_exhausted (fails : List (String × String)) (db : List Message)
    (sid q : String) :
    llmStage (asFailures fails) db sid q
      = (⟨[("error", Val.str "AI backend failed"),
           ("detail", optVal ((fails.getLast?).map Prod.snd))], 500⟩,
         db, failEvents fails) := by
  simp only [llmStage, tryBackends_eq, firstSuccess_asFailures,
    backendEvents_asFailures, lastErrOf_asFailures_none]

theorem chat_client_error (faqs : List FAQ) (backends : List (String × BackendResult))
    (db : List Message) (sessionId : Option String) (query : Option String)
    (hfalsy : truthyStr query = false) :
    chat faqs backends db sessionId query
      = (⟨[("error", Val.str "No query provided")], 400⟩, db, []) := by
  simp [chat, hfalsy]

theorem chat_escalated (faqs : List FAQ) (backends : List (String × BackendResult))
    (db : List Message) (sessionId : Option String) (q : String)
    (hq : q ≠ "") (hesc : should_escalate (some q) = true) :
    chat faqs backends db sessionId (some q)
      = (⟨[("response", Val.str escalationMessage), ("source", Val.str "rule-based"),
           ("action", Val.str "escalated"),
           ("session_id", Val.str (sessionId.getD "default"))], 200⟩,
         save_message (save_message db (sessionId.getD "default") "user" q)
           (sessionId.getD "default") "assistant" escalationMessage,
         ([] : List Event)) := by
  have htr : truthyStr (some q) = true := by simp [truthyStr, hq]
  simp [chat, htr, hesc]

theorem chat_faq (faqs : List FAQ) (backends : List (String × BackendResult))
    (db : List Message) (sessionId : Option String) (q ans : String)
    (hq : q ≠ "") (hesc : should_escalate (some q) = false)
    (hfr : (find_relevant_faq faqs (some q) (mkRat 3 10)).1 = some ans)
    (hans : ans ≠ "") :
    chat faqs backends db sessionId (some q)
      = (⟨[("response", Val.str ans), ("source", Val.str "faq"),
           ("match_score", Val.num (find_relevant_faq faqs (some q) (mkRat 3 10)).2),
           ("action", Val.str "responded"),
           ("session_id", Val.str (sessionId.getD "default"))], 200⟩,
         save_message (save_message db (sessionId.getD "default") "user" q)
           (sessionId.getD "default") "assistant" ans,
         [Event.matcherCall]) := by
  have htr : truthyStr (some q) = true := by simp [truthyStr, hq]
  simp [chat, htr, hesc, hfr, hans, truthyStr, hq]

theorem chat_llm (faqs : List FAQ) (backends : List (String × BackendResult))
    (db : List Message) (sessionId : Option String) (q : String)
    (hq : q ≠ "") (hesc : should_escalate (some q) = false)
    (hfaq : truthyStr (find_relevant_faq faqs (some q) (mkRat 3 10)).1 = false) :
    chat faqs backends db sessionId (some q)
      = ((llmStage backends db (sessionId.getD "default") q).1,
         (llmStage backends db (sessionId.getD "default") q).2.1,
         Event.matcherCall :: (llmStage backends db (sessionId.getD "default") q).2.2) := by
  have htr : truthyStr (some q) = true := by simp [truthyStr, hq]
  simp [chat, htr, hesc, hfaq]

/-! # Claims about the /chat pipeline -/

/-- C1: a successful invocation (status 200 — escalated, FAQ-matched or
generative) appends exactly two messages to the store: first the user
query, then the assistant reply; a client input error (400) or backend
exhaustion (500) appends nothing. -/
theorem claim_C1_message_pairs (faqs : List FAQ) (backends : List (String × BackendResult))
    (db : List Message) (sessionId : Option String) (query : Option String) :
    ((chat faqs backends db sessionId query).1.status = 200 →
      ∃ q reply, query = some q ∧
        (chat faqs backends db sessionId query).2.1
          = db ++ [⟨sessionId.getD "default", "user", q⟩,
                   ⟨sessionId.getD "default", "assistant", reply⟩]) ∧
    ((chat faqs backends db sessionId query).1.status ≠ 200 →
      (chat faqs backends db sessionId query).2.1 = db) := by
  by_cases htr : truthyStr query = false
  · rw [chat_client_error faqs backends db sessionId query htr]
    exact ⟨fun h => by simp at h, fun _ => rfl⟩
  · obtain ⟨q, rfl, hq⟩ : ∃ q, query = some q ∧ q ≠ "" := by
      cases query with
      | none => exact absurd rfl htr
      | some s =>
        refine ⟨s, rfl, ?_⟩
        intro hs
        exact htr (by simp [truthyStr, hs])
    cases hesc : should_escalate (some q) with
    | true =>
      rw [chat_escalated faqs backends db sessionId q hq hesc]
      refine ⟨fun _ => ⟨q, escalationMessage, rfl, ?_⟩, fun h => absurd rfl h⟩
      simp [save_message]
    | false =>
      cases hfaq : truthyStr (find_relevant_faq faqs (some q) (mkRat 3 10)).1 with
      | false =>
        rw [chat_llm faqs backends db sessionId q hq hesc hfaq]
        simp only [llmStage, tryBackends_eq]
        cases hfs : firstSuccess backends with
        | none =>
          exact ⟨fun h => by simp at h, fun _ => rfl⟩
        | some p =>
          obtain ⟨m, rep⟩ := p
          refine ⟨fun _ => ⟨q, if containsSub sentinelToken.data rep.data then
            escalationMessage else rep, rfl, ?_⟩, fun h => absurd rfl h⟩
          simp [save_message]
      | true =>
        obtain ⟨ans, hfr, hans⟩ : ∃ ans,
            (find_relevant_faq faqs (some q) (mkRat 3 10)).1 = some ans ∧ ans ≠ "" := by
          cases hfr : (find_relevant_faq faqs (some q) (mkRat 3 10)).1 with
          | none => rw [hfr] at hfaq; exact absurd hfaq (by decide)
          | some a =>
            refine ⟨a, rfl, ?_⟩
            intro ha
            rw [hfr, ha] at hfaq
            exact absurd hfaq (by decide)
        rw [chat_faq faqs backends db sessionId q ans hq hesc hfr hans]
        refine ⟨fun _ => ⟨q, ans, rfl, ?_⟩, fun h => absurd rfl h⟩
        simp [save_message]

/-- Witness for C1: an escalating query on the empty store appends exactly
its user/assistant pair. -/
theorem claim_C1_message_pairs_witness :
    ∃ q reply, (some "hack" : Option String) = some q ∧
      (chat [] [] [] none (some "hack")).2.1
        = [] ++ [⟨"default", "user", q⟩, ⟨"default", "assistant", reply⟩] :=
  (claim_C1_message_pairs [] [] [] none (some "hack")).1 (by decide)

/-- C2: a query containing an escalation keyword (case-insensitively, as
a substring) makes `should_escalate` true and the pipeline return the
rule-based escalation outcome with no matcher call and no backend call
(the event trail is empty); `should_escalate` is false on a null or empty
query. -/
theorem claim_C2_escalation (faqs : List FAQ) (backends : List (String × BackendResult))
    (db : List Message) (sessionId : Option String) (q k : String)
    (hk : k ∈ ESCALATION_KEYWORDS)
    (hsub : containsSub k.data (pyLower q).data = true) :
    should_escalate (some q) = true ∧
    chat faqs backends db sessionId (some q)
      = (⟨[("response", Val.str escalationMessage), ("source", Val.str "rule-based"),
           ("action", Val.str "escalated"),
           ("session_id", Val.str (sessionId.getD "default"))], 200⟩,
         save_message (save_message db (sessionId.getD "default") "user" q)
           (sessionId.getD "default") "assistant" escalationMessage,
         ([] : List Event)) ∧
    should_escalate none = false ∧ should_escalate (some "") = false := by
  have hkne : k.data ≠ [] := by
    fin_cases hk <;> decide
  have hq : q ≠ "" := by
    intro hq0
    subst hq0
    have hlow : (pyLower "").data = [] := rfl
    rw [hlow] at hsub
    have hfalse : containsSub k.data [] = false := by
      cases hkd : k.data with
      | nil => exact absurd hkd hkne
      | cons c cs => rfl
    exact Bool.false_ne_true (hfalse.symm.trans hsub)
  have hesc : should_escalate (some q) = true := by
    simp only [should_escalate, if_neg hq]
    exact List.any_eq_true.mpr ⟨k, hk, hsub⟩
  exact ⟨hesc, chat_escalated faqs backends db sessionId q hq hesc, rfl, rfl⟩

/-- Witness for C2 at the keyword "hack" inside a longer query. -/
theorem claim_C2_escalation_witness :
    should_escalate (some "Please HACK this account") = true ∧
    chat [] [] [] (some "s1") (some "Please HACK this account")
      = (⟨[("response", Val.str escalationMessage), ("source", Val.str "rule-based"),
           ("action", Val.str "escalated"), ("session_id", Val.str "s1")], 200⟩,
         save_message (save_message [] "s1" "user" "Please HACK this account")
           "s1" "assistant" escalationMessage,
         ([] : List Event)) ∧
    should_escalate none = false ∧ should_escalate (some "") = false :=
  claim_C2_escalation [] [] [] (some "s1") "Please HACK this account" "hack"
    (by decide) (by decide)

/-- C4: in the generative stage the configured backends are tried in list
order — one attempted call and one warning per failing backend — and the
first success wins, with the source naming that backend; when every
configured backend fails, the response is the 500 error "AI backend
failed" carrying the last observed error detail, and the store is
unchanged. -/
theorem claim_C4_backend_fallback (faqs : List FAQ) (db : List Message)
    (sessionId : Option String) (q : String) (fails : List (String × String))
    (m r : String) (rest : List (String × BackendResult))
    (hq : q ≠ "") (hesc : should_escalate (some q) = false)
    (hfaq : truthyStr (find_relevant_faq faqs (some q) (mkRat 3 10)).1 = false) :
    (chat faqs (asFailures fails ++ (m, BackendResult.success r) :: rest)
        db sessionId (some q)
      = (⟨[("response", Val.str (if containsSub sentinelToken.data r.data then
              escalationMessage else r)),
           ("source", Val.str ("llm:" ++ m)),
           ("action", Val.str (if containsSub sentinelToken.data r.data then
              "escalated" else "responded")),
           ("session_id", Val.str (sessionId.getD "default"))], 200⟩,
         save_message (save_message db (sessionId.getD "default") "user" q)
           (sessionId.getD "default") "assistant"
           (if containsSub sentinelToken.data r.data then escalationMessage else r),
         Event.matcherCall :: (failEvents fails ++ [Event.llmCall m]))) ∧
    (chat faqs (asFailures fails) db sessionId (some q)
      = (⟨[("error", Val.str "AI backend failed"),
           ("detail", optVal ((fails.getLast?).map Prod.snd))], 500⟩,
         db, Event.matcherCall :: failEvents fails)) := by
  constructor
  · rw [chat_llm faqs _ db sessionId q hq hesc hfaq, llmStage_success]
  · rw [chat_llm faqs _ db sessionId q hq hesc hfaq, llmStage_exhausted]

/-- Witness for C4: one failing backend then one succeeding backend, and
the all-fail run of the same failing backend. -/
theorem claim_C4_backend_fallback_witness :
    (chat [] (asFailures [("m1", "boom")] ++ ("m2", BackendResult.success "all good") :: [])
        [] none (some "hello")
      = (⟨[("response", Val.str (if containsSub sentinelToken.data "all good".data then
              escalationMessage else "all good")),
           ("source", Val.str ("llm:" ++ "m2")),
           ("action", Val.str (if containsSub sentinelToken.data "all good".data then
              "escalated" else "responded")),
           ("session_id", Val.str "default")], 200⟩,
         save_message (save_message [] "default" "user" "hello")
           "default" "assistant"
           (if containsSub sentinelToken.data "all good".data then
              escalationMessage else "all good"),
         Event.matcherCall :: (failEvents [("m1", "boom")] ++ [Event.llmCall "m2"]))) ∧
    (chat [] (asFailures [("m1", "boom")]) [] none (some "hello")
      = (⟨[("error", Val.str "AI backend failed"),
           ("detail", optVal (([("m1", "boom")].getLast?).map Prod.snd))], 500⟩,
         [], Event.matcherCall :: failEvents [("m1", "boom")])) :=
  claim_C4_backend_fallback [] [] none "hello" [("m1", "boom")] "m2" "all good" []
    (by decide) (by decide) (by decide)

/-- C5: for the extracted generative reply of the first successful
backend, a reply containing the sentinel token anywhere yields
action=escalated with the fixed handoff message in place of the model
text; otherwise the raw reply is returned verbatim with
action=responded. -/
theorem claim_C5_sentinel (faqs : List FAQ) (db : List Message)
    (sessionId : Option String) (q : String) (fails : List (String × String))
    (m r : String) (rest : List (String × BackendResult))
    (hq : q ≠ "") (hesc : should_escalate (some q) = false)
    (hfaq : truthyStr (find_relevant_faq faqs (some q) (mkRat 3 10)).1 = false) :
    (containsSub sentinelToken.data r.data = true →
      bodyGet (chat faqs (asFailures fails ++ (m, BackendResult.success r) :: rest)
          db sessionId (some q)).1 "response" = some (Val.str escalationMessage) ∧
      bodyGet (chat faqs (asFailures fails ++ (m, BackendResult.success r) :: rest)
          db sessionId (some q)).1 "action" = some (Val.str "escalated")) ∧
    (containsSub sentinelToken.data r.data = false →
      bodyGet (chat faqs (asFailures fails ++ (m, BackendResult.success r) :: rest)
          db sessionId (some q)).1 "response" = some (Val.str r) ∧
      bodyGet (chat faqs (asFailures fails ++ (m, BackendResult.success r) :: rest)
          db sessionId (some q)).1 "action" = some (Val.str "responded")) := by
  have hchat := chat_llm faqs (asFailures fails ++ (m, BackendResult.success r) :: rest)
    db sessionId q hq hesc hfaq
  rw [llmStage_success] at hchat
  constructor
  · intro hsent
    rw [hchat]
    simp [bodyGet, hsent]
  · intro hsent
    rw [hchat]
    simp [bodyGet, hsent]

/-- Witness for C5: a reply carrying the sentinel token, and a clean
reply, through one configured backend. -/
theorem claim_C5_sentinel_witness :
    (containsSub sentinelToken.data "ESCALATE_TO_AGENT".data = true →
      bodyGet (chat [] (asFailures [] ++ ("m1", BackendResult.success "ESCALATE_TO_AGENT") :: [])
          [] none (some "hello")).1 "response" = some (Val.str escalationMessage) ∧
      bodyGet (chat [] (asFailures [] ++ ("m1", BackendResult.success "ESCALATE_TO_AGENT") :: [])
          [] none (some "hello")).1 "action" = some (Val.str "escalated")) ∧
    (containsSub sentinelToken.data "ESCALATE_TO_AGENT".data = false →
      bodyGet (chat [] (asFailures [] ++ ("m1", BackendResult.success "ESCALATE_TO_AGENT") :: [])
          [] none (some "hello")).1 "response" = some (Val.str "ESCALATE_TO_AGENT") ∧
      bodyGet (chat [] (asFailures [] ++ ("m1", BackendResult.success "ESCALATE_TO_AGENT") :: [])
          [] none (some "hello")).1 "action" = some (Val.str "responded")) :=
  claim_C5_sentinel [] [] none "hello" [] "m1" "ESCALATE_TO_AGENT" []
    (by decide) (by decide) (by decide)

/-- C7 counterexample: a successful FAQ-matched invocation returns five
body fields — the four claimed ones plus `match_score` — so the claimed
four-field shape does not hold on every success branch. -/
theorem claim_C7_counterexample :
    (chat [⟨"reset password", "Go to settings", ["account"]⟩] [] []
        (some "s1") (some "How do I reset my password?")).1.status = 200 ∧
    ((chat [⟨"reset password", "Go to settings", ["account"]⟩] [] []
        (some "s1") (some "How do I reset my password?")).1.body.map Prod.fst)
      = ["response", "source", "match_score", "action", "session_id"] ∧
    ((chat [⟨"reset password", "Go to settings", ["account"]⟩] [] []
        (some "s1") (some "How do I reset my password?")).1.body.map Prod.fst)
      ≠ ["response", "source", "action", "session_id"] := by
  decide

/-- C7 amended: every successful (status 200) invocation returns a body
whose fields are exactly response, source, action, session_id — except the
FAQ branch, which additionally has match_score between source and
action — with session_id echoing the request's session and action being
either "escalated" or "responded". -/
theorem claim_C7_amended (faqs : List FAQ) (backends : List (String × BackendResult))
    (db : List Message) (sessionId : Option String) (query : Option String)
    (h200 : (chat faqs backends db sessionId query).1.status = 200) :
    ((chat faqs backends db sessionId query).1.body.map Prod.fst
        = ["response", "source", "action", "session_id"]
      ∨ (chat faqs backends db sessionId query).1.body.map Prod.fst
        = ["response", "source", "match_score", "action", "session_id"]) ∧
    bodyGet (chat faqs backends db sessionId query).1 "session_id"
      = some (Val.str (sessionId.getD "default")) ∧
    (bodyGet (chat faqs backends db sessionId query).1 "action"
        = some (Val.str "escalated")
      ∨ bodyGet (chat faqs backends db sessionId query).1 "action"
        = some (Val.str "responded")) := by
  by_cases htr : truthyStr query = false
  · rw [chat_client_error faqs backends db sessionId query htr] at h200
    simp at h200
  · obtain ⟨q, rfl, hq⟩ : ∃ q, query = some q ∧ q ≠ "" := by
      cases query with
      | none => exact absurd rfl htr
      | some s =>
        refine ⟨s, rfl, ?_⟩
        intro hs
        exact htr (by simp [truthyStr, hs])
    cases hesc : should_escalate (some q) with
    | true =>
      rw [chat_escalated faqs backends db sessionId q hq hesc]
      exact ⟨Or.inl rfl, by simp [bodyGet], Or.inl (by simp [bodyGet])⟩
    | false =>
      cases hfaq : truthyStr (find_relevant_faq faqs (some q) (mkRat 3 10)).1 with
      | false =>
        rw [chat_llm faqs backends db sessionId q hq hesc hfaq] at h200 ⊢
        simp only [llmStage, tryBackends_eq] at h200 ⊢
        cases hfs : firstSuccess backends with
        | none =>
          rw [hfs] at h200
          simp at h200
        | some p =>
          obtain ⟨m, rep⟩ := p
          refine ⟨Or.inl rfl, by simp [bodyGet], ?_⟩
          by_cases hsent : containsSub sentinelToken.data rep.data
          · exact Or.inl (by simp [bodyGet, hsent])
          · exact Or.inr (by simp [bodyGet, hsent])
      | true =>
        obtain ⟨ans, hfr, hans⟩ : ∃ ans,
            (find_relevant_faq faqs (some q) (mkRat 3 10)).1 = some ans ∧ ans ≠ "" := by
          cases hfr : (find_relevant_faq faqs (some q) (mkRat 3 10)).1 with
          | none => rw [hfr] at hfaq; exact absurd hfaq (by decide)
          | some a =>
            refine ⟨a, rfl, ?_⟩
            intro ha
            rw [hfr, ha] at hfaq
            exact absurd hfaq (by decide)
        rw [chat_faq faqs backends db sessionId q ans hq hesc hfr hans]
        exact ⟨Or.inr rfl, by simp [bodyGet], Or.inr (by simp [bodyGet])⟩

/-- Witness for C7 at a concrete generative success. -/
theorem claim_C7_amended_witness :
    ((chat [] [("m1", BackendResult.success "ok")] [] none (some "hello")).1.body.map Prod.fst
        = ["response", "source", "action", "session_id"]
      ∨ (chat [] [("m1", BackendResult.success "ok")] [] none (some "hello")).1.body.map Prod.fst
        = ["response", "source", "match_score", "action", "session_id"]) ∧
    bodyGet (chat [] [("m1", BackendResult.success "ok")] [] none (some "hello")).1 "session_id"
      = some (Val.str "default") ∧
    (bodyGet (chat [] [("m1", BackendResult.success "ok")] [] none (some "hello")).1 "action"
        = some (Val.str "escalated")
      ∨ bodyGet (chat [] [("m1", BackendResult.success "ok")] [] none (some "hello")).1 "action"
        = some (Val.str "responded")) :=
  claim_C7_amended [] [("m1", BackendResult.success "ok")] [] none (some "hello") (by decide)
